import Mathlib

/-!
Verification development for the SP-STM sensor-processor firmware.

This file gives a shallow embedding, in Lean 4, of the message framing,
CRC integrity, bus-link byte transport, report-slot draining, sensor
checksum/parsing and dispatch-reply logic of the SP-STM firmware
(`core/comm/comm.c`, `core.c`, `main.c`, `STM.c`, with constants from
`msg.h`, `comm.h`, `crc.h`, `FiveTM.h`), together with theorems settling
the specification claims about those routines.

Machine integers are modelled as `Nat` with explicit masking where the C
code relies on fixed-width behaviour; signed `char`/`int` arithmetic in
the sensor driver is modelled on `Int` via an explicit sign-extension
function.  Hardware-level concerns (pin registers, interrupts, timers)
are abstracted away: byte-level routines take the values the hardware
loops would have sampled (bit levels, ACK line level, per-attempt
success of a byte transmission) as explicit arguments.
-/

/-! ## Constants from msg.h, comm.h, crc.h, main.c and FiveTM.h -/

def MAXMSGLEN : Nat := 0x40
def SP_HEADERSIZE : Nat := 4
def MSG_TYP_IDX : Nat := 0
def MSG_LEN_IDX : Nat := 1
def MSG_VER_IDX : Nat := 2
def MSG_FLAGS_IDX : Nat := 3
def MSG_PAYLD_IDX : Nat := 4
def SP_DATAMESSAGE_VERSION : Nat := 120

def COMMAND_PKT : Nat := 0x01
def REPORT_DATA : Nat := 0x02
def REQUEST_DATA : Nat := 0x04
def REQUEST_LABEL : Nat := 0x05
def ID_PKT : Nat := 0x06
def CONFIRM_COMMAND : Nat := 0x07
def REPORT_ERROR : Nat := 0x08
def REQUEST_BSL_PW : Nat := 0x09
def INTERROGATE : Nat := 0x0A
def SET_SERIALNUM : Nat := 0x0B
def COMMAND_SENSOR_TYPE : Nat := 0x0C
def REQUEST_SENSOR_TYPE : Nat := 0x0D

def COMM_OK : Nat := 0x00
def COMM_BUFFER_UNDERFLOW : Nat := 0x01
def COMM_BUFFER_OVERFLOW : Nat := 0x02
def COMM_ERROR : Nat := 0x04
def COMM_ACK_ERR : Nat := 0x10

def COMM_RUNNING : Nat := 0x01
def COMM_TX_BUSY : Nat := 0x02
def COMM_RX_BUSY : Nat := 0x04
def COMM_PARITY_ERR : Nat := 0x08
def SHUTDOWN_BIT : Nat := 0x01

/-- The pin mask of the serial data line, `SDA_PIN = BIT1` in comm.h.
The ACK sample in `ucCOMM_SendByte` is the input register masked with
this value, so it is 2 when the line is high, never 1. -/
def SDA_PIN : Nat := 2

def CRC_FOR_MSG_TO_SEND : Nat := 1
def CRC_FOR_MSG_TO_REC : Nat := 0
def CRC_SZ : Nat := 2

def F_NEWDATA : Nat := 0x01
def NUMDATGEN : Nat := 9
def FIVETM : Nat := 0x78

/-! ## CRC-16 (spec-modelled)

The implementation file `crc.c` is not part of the repository snapshot;
only its header `crc.h` (declaring `ucCRC16_compute_msg_CRC` with the
send/receive mode flag) is.  The functions below are therefore modelled
from the spec: a 16-bit CRC computed over header and payload for
outgoing messages (appended after the payload), and over
header+payload+trailer for incoming messages, one implementation
parameterized by send vs. receive mode.  We use the CCITT polynomial
0x1021, most-significant-bit first, initial value 0; the receive mode
accepts exactly when the CRC rolled over the whole message including
the trailer is zero. -/

/-- One bit step of the CRC-16: shift left, and on carry-out of bit 15
reduce by the polynomial 0x1021, keeping 16 bits. -/
def crcShift (s : Nat) : Nat :=
  if s.testBit 15 then ((s <<< 1) ^^^ 0x1021) &&& 0xFFFF else (s <<< 1) &&& 0xFFFF

/-- Fold one message byte into the CRC state (8 bit steps). -/
def crcByteStep (s b : Nat) : Nat := crcShift^[8] (s ^^^ (b <<< 8))

/-- CRC-16 of a byte list, initial state 0. -/
def crc16 (msg : List Nat) : Nat := msg.foldl crcByteStep 0

/-- Modelled from the spec: `ucCRC16_compute_msg_CRC` (crc.c, absent from
the snapshot; declared in crc.h).  In send mode it computes the CRC over
the first `len - CRC_SZ` bytes and writes the two CRC bytes (high byte
first) right after them, returning 1; in receive mode it recomputes the
CRC over the first `len` bytes (message plus trailer) and returns 1
exactly when the message checks out, 0 on a CRC mismatch. -/
def ucCRC16_compute_msg_CRC (ucMsgFlag : Nat) (ucMSGBuff : List Nat)
    (ucLength : Nat) : Nat × List Nat :=
  if ucMsgFlag = CRC_FOR_MSG_TO_SEND then
    let r := crc16 (ucMSGBuff.take (ucLength - CRC_SZ))
    (1, ucMSGBuff.take (ucLength - CRC_SZ) ++ [r >>> 8, r &&& 0xFF]
          ++ ucMSGBuff.drop ucLength)
  else
    (if crc16 (ucMSGBuff.take ucLength) = 0 then 1 else 0, ucMSGBuff)

/-! ### CRC facts -/

theorem crcShift_lt (s : Nat) : crcShift s < 65536 := by
  unfold crcShift
  split <;> exact Nat.lt_succ_of_le (Nat.and_le_right)

theorem crcShift_iterate_lt (n : Nat) (s : Nat) : crcShift^[n + 1] s < 65536 := by
  rw [Function.iterate_succ_apply']
  exact crcShift_lt _

theorem crcByteStep_lt (s b : Nat) : crcByteStep s b < 65536 :=
  crcShift_iterate_lt 7 _

theorem and_mask16_eq_mod (x : Nat) : x &&& 0xFFFF = x % 65536 := by
  apply Nat.eq_of_testBit_eq
  intro i
  have h : (0xFFFF : Nat) = 2 ^ 16 - 1 := by norm_num
  have h2 : (65536 : Nat) = 2 ^ 16 := by norm_num
  rw [h, h2, Nat.testBit_and, Nat.testBit_two_pow_sub_one, Nat.testBit_mod_two_pow]
  rw [Bool.and_comm]

theorem testBit_15_false_lt (s : Nat) (hlt : s < 65536)
    (h : s.testBit 15 = false) : s < 32768 := by
  by_contra hge
  push_neg at hge
  have h1 : s.testBit 15 = true := by
    rw [Nat.testBit_to_div_mod]
    have h2 : (2 : Nat) ^ 15 = 32768 := by norm_num
    rw [h2]
    have h3 : s / 32768 = 1 := by omega
    simp [h3]
  rw [h] at h1
  simp at h1

theorem crcShift_ne_zero (s : Nat) (hlt : s < 65536) (hs : s ≠ 0) :
    crcShift s ≠ 0 := by
  unfold crcShift
  split
  · -- carry out: the polynomial is odd while the shift is even, so bit 0 is set
    intro hzero
    have hb : (((s <<< 1) ^^^ 0x1021) &&& 0xFFFF).testBit 0 = true := by
      rw [Nat.testBit_and, Nat.testBit_xor, Nat.shiftLeft_eq]
      have heven : (s * 2 ^ 1).testBit 0 = false := by
        rw [Nat.testBit_to_div_mod]
        simp [Nat.mul_mod_left]
      rw [heven]
      rfl
    rw [hzero] at hb
    simp at hb
  · -- no carry: the value doubles without wrapping, staying nonzero
    rename_i hbit
    rw [and_mask16_eq_mod]
    have h15 : s < 32768 := testBit_15_false_lt s hlt (by simpa using hbit)
    rw [Nat.shiftLeft_eq, Nat.mod_eq_of_lt (by omega)]
    omega

theorem crcShift_iterate_ne_zero (n : Nat) (s : Nat) (hlt : s < 65536)
    (hs : s ≠ 0) : crcShift^[n] s ≠ 0 := by
  induction n generalizing s with
  | zero => simpa using hs
  | succ n ih =>
      rw [Function.iterate_succ_apply]
      exact ih _ (crcShift_lt s) (crcShift_ne_zero s hlt hs)

set_option maxRecDepth 4000

/-- Feeding a nonzero byte into the zero CRC state yields a nonzero state. -/
theorem crcByteStep_zero_ne_zero : ∀ d < 256, d ≠ 0 → crcByteStep 0 d ≠ 0 := by
  decide

/-- Appending the two CRC bytes of the current state drives the state to 0
(checked for all byte values after reducing the state to its low byte). -/
theorem crc_two_bytes : ∀ lo < 256,
    crcShift^[8] (crcShift^[8] lo ^^^ (lo <<< 8)) = 0 := by
  decide

theorem xor_shiftRight_shiftLeft (r : Nat) : r ^^^ ((r >>> 8) <<< 8) = r &&& 0xFF := by
  apply Nat.eq_of_testBit_eq
  intro i
  have h255 : (0xFF : Nat) = 2 ^ 8 - 1 := by norm_num
  simp only [Nat.testBit_xor, Nat.testBit_shiftLeft, Nat.testBit_shiftRight,
    Nat.testBit_and, h255, Nat.testBit_two_pow_sub_one]
  by_cases h : 8 ≤ i
  · have : 8 + (i - 8) = i := by omega
    simp [h, this, Nat.not_lt_of_le h]
  · simp [h, Nat.lt_of_not_le h]

/-- The CRC self-cancellation property: feeding the high byte and then the
low byte of the current CRC state rolls the state to 0. -/
theorem crc_append_self (r : Nat) :
    crcByteStep (crcByteStep r (r >>> 8)) (r &&& 0xFF) = 0 := by
  have hlo : r &&& 0xFF < 256 := Nat.lt_succ_of_le (Nat.and_le_right)
  unfold crcByteStep
  rw [xor_shiftRight_shiftLeft]
  exact crc_two_bytes _ hlo

theorem xor_shiftLeft_distrib (a b n : Nat) :
    (a ^^^ b) <<< n = (a <<< n) ^^^ (b <<< n) := by
  apply Nat.eq_of_testBit_eq
  intro i
  simp only [Nat.testBit_xor, Nat.testBit_shiftLeft, Bool.and_xor_distrib_left]

theorem crcShift_eq_ite (s : Nat) :
    crcShift s = ((s <<< 1) ^^^ (if s.testBit 15 then 0x1021 else 0)) &&& 0xFFFF := by
  cases h : s.testBit 15 <;> simp [crcShift, h]

theorem crcShift_xor (a b : Nat) :
    crcShift (a ^^^ b) = crcShift a ^^^ crcShift b := by
  rw [crcShift_eq_ite (a ^^^ b), crcShift_eq_ite a, crcShift_eq_ite b,
    ← Nat.and_xor_distrib_right]
  congr 1
  rw [xor_shiftLeft_distrib, Nat.testBit_xor]
  cases ha : a.testBit 15 <;> cases hb : b.testBit 15 <;> simp [ha, hb]
  · rw [Nat.xor_assoc]
  · rw [Nat.xor_assoc, Nat.xor_comm (b <<< 1) 0x1021, ← Nat.xor_assoc]
  · rw [Nat.xor_assoc (a <<< 1) 0x1021, Nat.xor_comm (b <<< 1) 0x1021,
      Nat.xor_cancel_left]

theorem crcShift_iterate_xor (n : Nat) (a b : Nat) :
    crcShift^[n] (a ^^^ b) = crcShift^[n] a ^^^ crcShift^[n] b := by
  induction n generalizing a b with
  | zero => simp
  | succ n ih =>
      rw [Function.iterate_succ_apply, Function.iterate_succ_apply,
        Function.iterate_succ_apply, crcShift_xor, ih]

/-- The CRC byte step is linear over bitwise xor. -/
theorem crcByteStep_xor (s₁ s₂ b₁ b₂ : Nat) :
    crcByteStep (s₁ ^^^ s₂) (b₁ ^^^ b₂) = crcByteStep s₁ b₁ ^^^ crcByteStep s₂ b₂ := by
  unfold crcByteStep
  rw [← crcShift_iterate_xor]
  congr 1
  rw [xor_shiftLeft_distrib]
  rw [Nat.xor_assoc, Nat.xor_assoc]
  congr 1
  rw [← Nat.xor_assoc, Nat.xor_comm s₂ (b₁ <<< 8), Nat.xor_assoc]

theorem crcByteStep_zero_byte (d : Nat) : crcByteStep d 0 = crcShift^[8] d := by
  unfold crcByteStep
  rw [Nat.zero_shiftLeft, Nat.xor_zero]

/-- Perturbing the CRC state by `d` before folding a byte list perturbs the
final state by the image of `d` under the zero-byte steps. -/
theorem foldl_crc_xor_state (l : List Nat) (x d : Nat) :
    l.foldl crcByteStep (x ^^^ d) =
      l.foldl crcByteStep x ^^^ crcShift^[8 * l.length] d := by
  induction l generalizing x d with
  | nil => simp
  | cons c l ih =>
      simp only [List.foldl_cons, List.length_cons]
      have hstep : crcByteStep (x ^^^ d) c = crcByteStep x c ^^^ crcShift^[8] d := by
        rw [← crcByteStep_zero_byte, ← crcByteStep_xor, Nat.xor_zero]
      rw [hstep, ih]
      congr 1

/-- Changing the byte at position `i` of a message changes its CRC by a
nonzero perturbation: the CRC of the corrupted message differs from the
CRC of the original. -/
theorem crc16_set_ne (l : List Nat) (i b : Nat) (hi : i < l.length)
    (hb : b < 256) (hmem : ∀ x ∈ l, x < 256) (hne : b ≠ l.getD i 0) :
    crc16 (l.set i b) ≠ crc16 l := by
  have hdecomp : l = l.take i ++ l[i] :: l.drop (i + 1) :=
    (List.take_append_drop i l).symm.trans (by rw [List.drop_eq_getElem_cons hi])
  have hset : l.set i b = l.take i ++ b :: l.drop (i + 1) :=
    List.set_eq_take_cons_drop b hi
  have hgetD : l.getD i 0 = l[i] := List.getD_eq_getElem l 0 hi
  have hlb : l[i] < 256 := hmem _ (List.getElem_mem hi)
  set a := l[i] with ha
  set d := a ^^^ b with hd
  have hdne : d ≠ 0 := by
    rw [hd, Ne, Nat.xor_eq_zero]
    intro h
    exact hne (by rw [hgetD, ← h])
  have hdlt : d < 256 := Nat.xor_lt_two_pow (n := 8) hlb hb
  unfold crc16
  rw [hset]
  conv_rhs => rw [hdecomp]
  rw [List.foldl_append, List.foldl_append, List.foldl_cons, List.foldl_cons]
  set R := (l.take i).foldl crcByteStep 0 with hR
  have hbd : crcByteStep R b = crcByteStep R a ^^^ crcByteStep 0 d := by
    rw [← crcByteStep_xor, Nat.xor_zero, hd, Nat.xor_cancel_left]
  rw [hbd, foldl_crc_xor_state]
  intro hcontra
  have hper : crcShift^[8 * (l.drop (i + 1)).length] (crcByteStep 0 d) ≠ 0 :=
    crcShift_iterate_ne_zero _ _ (crcByteStep_lt _ _)
      (crcByteStep_zero_ne_zero d hdlt hdne)
  apply hper
  have h2 := congrArg
    (fun t => (l.drop (i+1)).foldl crcByteStep (crcByteStep R a) ^^^ t) hcontra
  simp only [Nat.xor_cancel_left, Nat.xor_self] at h2
  exact h2

/-! ## Bus-link transport state (comm.c)

The global state touched by comm.c: the status flag byte
`g_ucCOMM_Flags`, the receive buffer `g_ucaRXBuffer` and the receive
index `g_ucRXBufferIndex`.  Pin registers, clock-edge waits and the
timer are not part of the state: the byte routines instead take the
values the hardware would have sampled as explicit arguments. -/

structure CommState where
  flags : Nat
  rxBuf : List Nat
  rxIdx : Nat
  deriving Repr, DecidableEq

/-- Embedding of `ucCOMM_SendByte` (comm.c).  The routine computes even
parity over the eight data bits, forms the 9-bit frame
`ucTXChar | (parity << 8)`, and shifts it out LSB first (bit 0 first,
then the remaining seven data bits, then the parity bit).  After the
nine bits it samples the peer's ACK on the data line; the sample is the
input register masked with `SDA_PIN`, i.e. 2 when the line is high (a
NACK) and 0 when low (an ACK), and the routine then compares that
sample against 1.  Arguments: the state, the byte, and the level of the
data line at the ACK sample.  Returns the new state, the return code
and the list of transmitted bit levels in transmission order. -/
def ucCOMM_SendByte (st : CommState) (ucTXChar : Nat) (sdaAckHigh : Bool) :
    CommState × Nat × List Bool :=
  if st.flags &&& COMM_TX_BUSY ≠ 0 then
    (st, COMM_ERROR, [])
  else
    let ucParityBit :=
      (List.range 8).foldl (fun p i => p ^^^ ((ucTXChar >>> i) &&& 1)) 0
    let uiTXChar := (ucTXChar ||| (ucParityBit <<< 8)) &&& 0xFFFF
    let bits := (List.range 9).map (fun i => uiTXChar.testBit i)
    let ucAck := if sdaAckHigh then SDA_PIN else 0
    if ucAck = 1 then (st, COMM_ACK_ERR, bits) else (st, COMM_OK, bits)

/-- The byte-assembly loop of `ucCOMM_ReceiveByte`: for each sampled bit
the byte is shifted right and the sample is written to bit 7 (set with
an or of 0x80, cleared with an and of 0x7F), so the first sampled bit
ends at bit 0. -/
def rxByteAssemble (bits : List Bool) : Nat :=
  bits.foldl (fun acc b => if b then (acc >>> 1) ||| 0x80 else (acc >>> 1) &&& 0x7F) 0

/-- Embedding of `ucCOMM_ReceiveByte` (comm.c).  The eight data bits are
sampled on successive clock edges and shifted in at bit 7 after a right
shift, so the first sampled bit lands at bit 0.  A parity counter is
incremented for each set bit; after the data bits the peer's parity bit
is sampled and compared against the counter mod 2.  On a mismatch the
sticky `COMM_PARITY_ERR` flag is set, but the assembled byte is stored
at the receive index and the index advanced regardless, and the routine
returns `COMM_OK`.  If the RX-busy flag is already set the routine
returns `COMM_ERROR` without touching the state.  Arguments: the state,
the eight sampled data-line levels in sample order, and the sampled
parity-bit level. -/
def ucCOMM_ReceiveByte (st : CommState) (bits : List Bool) (rxParityHigh : Bool) :
    CommState × Nat :=
  if st.flags &&& COMM_RX_BUSY ≠ 0 then
    (st, COMM_ERROR)
  else
    let ucRXByte := rxByteAssemble bits
    let ucParityBit := (bits.countP (fun b => b)) % 2
    let ucRxParityBit := if rxParityHigh then 1 else 0
    let flags2 := if ucParityBit ≠ ucRxParityBit
      then st.flags ||| COMM_PARITY_ERR else st.flags
    (⟨flags2, st.rxBuf.set st.rxIdx ucRXByte, st.rxIdx + 1⟩, COMM_OK)

/-- Embedding of the receive loop of `ucCOMM_WaitForMessage` (comm.c).
Each iteration receives one byte into the buffer (`ucCOMM_ReceiveByte`
succeeds and appends whenever the busy flag is clear, which holds
throughout the loop); once the buffer holds `SP_HEADERSIZE` bytes the
expected size becomes the declared length byte plus `CRC_SZ`, and the
loop returns `COMM_ERROR` if that size is above `MAXMSGLEN` or below
`SP_HEADERSIZE`.  The loop ends successfully when the buffer index
equals the expected size.  `input` is the stream of bytes arriving on
the link; the result is `none` if the stream ends before the loop does
(the C code would keep waiting). -/
def waitForMessageLoop : List Nat → List Nat → Nat → Option (Nat × List Nat)
  | [], _, _ => none
  | b :: rest, buf, size =>
    if (buf ++ [b]).length = SP_HEADERSIZE then
      if (buf ++ [b]).getD MSG_LEN_IDX 0 + CRC_SZ > MAXMSGLEN ∨
          (buf ++ [b]).getD MSG_LEN_IDX 0 + CRC_SZ < SP_HEADERSIZE then
        some (COMM_ERROR, buf ++ [b])
      else if (buf ++ [b]).length = (buf ++ [b]).getD MSG_LEN_IDX 0 + CRC_SZ then
        some (COMM_OK, buf ++ [b])
      else
        waitForMessageLoop rest (buf ++ [b])
          ((buf ++ [b]).getD MSG_LEN_IDX 0 + CRC_SZ)
    else if (buf ++ [b]).length = size then
      some (COMM_OK, buf ++ [b])
    else
      waitForMessageLoop rest (buf ++ [b]) size

/-- Embedding of `ucCOMM_WaitForMessage` (comm.c): the loop starts with
an empty buffer and the expected size initialised to `SP_HEADERSIZE`.
The final `g_ucRXBufferIndex == 0` check of the C code is unreachable
(the loop ends with at least four bytes in the buffer), so the loop
result is the function result.  Returns the error code together with
the bytes received into the buffer. -/
def ucCOMM_WaitForMessage (input : List Nat) : Option (Nat × List Nat) :=
  waitForMessageLoop input [] SP_HEADERSIZE

/-- Embedding of the transmit loop of `vCOMM_SendMessage` (comm.c).
`mem p` is the byte at offset `p` from the buffer pointer (the C code
can read past the message on failed attempts, since `*pBuff++`
advances on every attempt).  `oracle` gives the outcome of each
successive `ucCOMM_SendByte` call (`true` = `COMM_OK`).  On a failed
attempt the loop counter is decremented (so the next iteration does
not advance it) but the pointer has already advanced; the error count
is cumulative, and when it reaches 5 the rest of the message is
abandoned.  Returns the list of bytes attempted in order plus `true`
when the loop was abandoned by the error count, or `none` if the
oracle ran out. -/
def sendMessageLoop (mem : Nat → Nat) (len : Nat) :
    Nat → Nat → Nat → List Bool → Option (List Nat × Bool)
  | p, ucLoopCount, ucErrorCount, oracle =>
    if ucLoopCount < len then
      match oracle with
      | [] => none
      | ok :: rest =>
        let byte := mem p
        if ok then
          (sendMessageLoop mem len (p + 1) (ucLoopCount + 1) ucErrorCount rest).map
            (fun r => (byte :: r.1, r.2))
        else if ucErrorCount + 1 = 5 then
          some ([byte], true)
        else
          (sendMessageLoop mem len (p + 1) ucLoopCount (ucErrorCount + 1) rest).map
            (fun r => (byte :: r.1, r.2))
    else
      some ([], false)

/-- Embedding of `vCOMM_SendMessage` (comm.c): the length is increased
by `CRC_SZ`, the CRC of the message is computed in send mode (writing
the two CRC bytes after the payload), and the transmit loop then sends
the bytes.  Returns the loop result together with the buffer after the
CRC append.  Reads past the end of the buffer (possible on failed
attempts) return the unspecified memory value 0. -/
def vCOMM_SendMessage (pBuff : List Nat) (ucLength : Nat) (oracle : List Bool) :
    Option (List Nat × Bool) × List Nat :=
  let len := ucLength + CRC_SZ
  let buff2 := (ucCRC16_compute_msg_CRC CRC_FOR_MSG_TO_SEND pBuff len).2
  (sendMessageLoop (fun p => buff2.getD p 0) len 0 0 0 oracle, buff2)

/-- Embedding of `ucCOMM_GrabMessageFromBuffer` (comm.c).  Fails with
`COMM_BUFFER_UNDERFLOW` when fewer than `SP_HEADERSIZE` bytes have been
received or when the declared length exceeds `MAXMSGLEN`, and with
`COMM_ERROR` when the CRC over the declared length plus trailer does
not check out; in those cases neither the destination buffer nor the
state is touched.  On success the declared length's worth of bytes is
copied to the front of the destination buffer, the receive index is
reset to 0, and `COMM_OK` is returned. -/
def ucCOMM_GrabMessageFromBuffer (st : CommState) (pucBuff : List Nat) :
    Nat × CommState × List Nat :=
  if st.rxIdx < SP_HEADERSIZE then
    (COMM_BUFFER_UNDERFLOW, st, pucBuff)
  else if st.rxBuf.getD MSG_LEN_IDX 0 > MAXMSGLEN then
    (COMM_BUFFER_UNDERFLOW, st, pucBuff)
  else if (ucCRC16_compute_msg_CRC CRC_FOR_MSG_TO_REC st.rxBuf
      (st.rxBuf.getD MSG_LEN_IDX 0 + CRC_SZ)).1 = 0 then
    (COMM_ERROR, st, pucBuff)
  else
    (COMM_OK, ⟨st.flags, st.rxBuf, 0⟩,
      st.rxBuf.take (st.rxBuf.getD MSG_LEN_IDX 0) ++
        pucBuff.drop (st.rxBuf.getD MSG_LEN_IDX 0))

/-! ## Dispatch engine (core.c) -/

/-- The message types with a dedicated case in the `vCORE_Run` dispatch
switch (core.c); every other received type falls into the default case. -/
def dispatchedTypes : List Nat :=
  [COMMAND_PKT, REQUEST_DATA, REQUEST_LABEL, REQUEST_BSL_PW, INTERROGATE,
    SET_SERIALNUM, COMMAND_SENSOR_TYPE, REQUEST_SENSOR_TYPE]

/-- Embedding of the default case of the `vCORE_Run` dispatch switch
(core.c): the reply is built in place over the received message buffer
by overwriting the type with `REPORT_ERROR`, the length with
`SP_HEADERSIZE`, the version with `SP_DATAMESSAGE_VERSION`, and the
flags byte with `flags | SHUTDOWN_BIT` when `ucMain_ShutdownAllowed`
returned 1 and with 0 otherwise. -/
def vCORE_UnknownTypeReply (ucaMsg_Buff : List Nat) (shutdownAllowed : Bool) :
    List Nat :=
  let b1 := ucaMsg_Buff.set MSG_TYP_IDX REPORT_ERROR
  let b2 := b1.set MSG_LEN_IDX SP_HEADERSIZE
  let b3 := b2.set MSG_VER_IDX SP_DATAMESSAGE_VERSION
  if shutdownAllowed then
    b3.set MSG_FLAGS_IDX ((b3.getD MSG_FLAGS_IDX 0) ||| SHUTDOWN_BIT)
  else
    b3.set MSG_FLAGS_IDX 0

/-- Embedding of the type switch of `vCORE_Run` (core.c), restricted to
what the claims need: for a received message whose type has a dedicated
case the reply construction involves external collaborators and is not
modelled (`none`); for every other type the default case builds the
reply message returned here. -/
def vCORE_DispatchSwitch (ucaMsg_Buff : List Nat) (shutdownAllowed : Bool) :
    Option (List Nat) :=
  if ucaMsg_Buff.getD MSG_TYP_IDX 0 ∈ dispatchedTypes then
    none
  else
    some (vCORE_UnknownTypeReply ucaMsg_Buff shutdownAllowed)

/-! ## Report slots (main.c) -/

/-- The `S_Report` slot structure of main.c: up to `MAXDATALEN = 4` data
bytes, a length, and a flags byte whose `F_NEWDATA` bit marks fresh
data. -/
structure SReport where
  m_ucaData : List Nat
  m_ucLength : Nat
  m_ucFlags : Nat
  deriving Repr, DecidableEq

/-- Embedding of `ucMain_FetchData` (main.c).  The loop scans the slots
in index order; for each slot whose `F_NEWDATA` flag is set it writes
the slot index, the slot length and the slot's data bytes to the output
buffer and adds `length + 2` to the running total.  The function reads
but never writes `S_Report`: in particular the `F_NEWDATA` flags are
left exactly as they were, which the third component (the slot table
after the call) records.  Returns (payload bytes, total length, slots
after the call). -/
def ucMain_FetchData_loop : List SReport → Nat → List Nat × Nat
  | [], _ => ([], 0)
  | s :: rest, ucDataGenCnt =>
    let r := ucMain_FetchData_loop rest (ucDataGenCnt + 1)
    if s.m_ucFlags &&& F_NEWDATA ≠ 0 then
      (ucDataGenCnt :: s.m_ucLength :: s.m_ucaData.take s.m_ucLength ++ r.1,
        s.m_ucLength + 2 + r.2)
    else r

def ucMain_FetchData (slots : List SReport) : List Nat × Nat × List SReport :=
  let r := ucMain_FetchData_loop slots 0
  (r.1, r.2, slots)

/-! ## STM sensor driver (STM.c) -/

/-- Sign extension of a stored byte: the STM receive buffer is an array
of `char`, which is signed 8-bit on this compiler, so bytes at and
above 128 are read back as negative values. -/
def toSigned (b : Nat) : Int := if b < 128 then (b : Int) else (b : Int) - 256

/-- Embedding of the summation do-while loop of `cSTM_Test_Checksum`
(STM.c): starting at index 0 the loop adds the (signed) byte at the
index and advances, stopping as soon as the byte at the new index is
the carriage-return terminator 0x0D — so the terminator is the first
0x0D at an index of at least 1.  Returns the sum and the terminator
index, or `none` when the scan would run past the buffer (the C code
would read out of bounds). -/
def stmChecksumScan (buf : List Nat) : Nat → Int → Nat → Option (Int × Nat)
  | _, _, 0 => none
  | idx, add, fuel + 1 =>
    let add2 := add + toSigned (buf.getD idx 0)
    let idx2 := idx + 1
    if idx2 < buf.length then
      if buf.getD idx2 0 = 0x0D then some (add2, idx2)
      else stmChecksumScan buf idx2 add2 fuel
    else none

/-- Embedding of `cSTM_Test_Checksum` (STM.c).  After the scan the
terminator byte and the following type byte are added to the sum, the
sum is reduced with the C truncated remainder `% 64` and offset by 32,
and the byte two positions past the terminator is compared (as a
signed char) against the result.  Returns `some 0` when the checksum
matches (the C success value), `some 1` on a mismatch, and `none` when
the C code would read out of bounds. -/
def cSTM_Test_Checksum (buf : List Nat) : Option Nat :=
  match stmChecksumScan buf 0 0 buf.length with
  | none => none
  | some (add, k) =>
    if k + 2 < buf.length then
      let add2 := add + toSigned (buf.getD k 0) + toSigned (buf.getD (k + 1) 0)
      let add3 := Int.tmod add2 64 + 32
      some (if toSigned (buf.getD (k + 2) 0) = add3 then 0 else 1)
    else none

/-- Embedding of the temperature loop of the 5TM branch of
`cSTM_ReadValue` (STM.c): the loop predecrements the index and, while
the byte there is not a space and the index is not 0, accumulates
`(byte − 48) × mult` and multiplies `mult` by 10.  Returns the
accumulated value and the index at which the loop stopped. -/
def stmTempLoop (buf : List Nat) : Nat → Int → Int → Int × Nat
  | 0, temp, _ => (temp, 0)
  | i + 1, temp, mult =>
    let b := buf.getD i 0
    if b ≠ 0x20 ∧ i ≠ 0 then
      stmTempLoop buf i (temp + (toSigned b - 48) * mult) (mult * 10)
    else
      (temp, i)

/-- Embedding of the soil-moisture loop of the 5TM branch of
`cSTM_ReadValue` (STM.c): `while (idx-- != 0)` runs the body for the
indices below the starting index down to 0, accumulating
`(byte − 48) × mult` with `mult` growing by 10 each step. -/
def stmSoilLoop (buf : List Nat) : Nat → Int → Int → Int
  | 0, soil, _ => soil
  | j + 1, soil, mult =>
    stmSoilLoop buf j (soil + (toSigned (buf.getD j 0) - 48) * mult) (mult * 10)

/-- Embedding of `cSTM_ReadValue` (STM.c) for the 5TM sensor (type byte
0x78 following the first carriage return): the temperature digits are
converted right-to-left from just below the terminator until a space,
the index is then moved two more positions down, and the soil-moisture
digits are converted from there down to index 0.  Returns
(soil moisture, temperature).  The 5TE and MPS6 branches are not
modelled (no claim concerns them), and `none` is returned for them and
when no terminator is found. -/
def cSTM_ReadValue (buf : List Nat) : Option (Int × Int) :=
  match buf.findIdx? (fun b => b == 0x0D) with
  | none => none
  | some k =>
    if buf.getD (k + 1) 0 = FIVETM then
      let tp := stmTempLoop buf k 0 1
      let soil := stmSoilLoop buf (tp.2 - 2) 0 1
      some (soil, tp.1)
    else
      none

/-! ## List helper lemmas -/

theorem getD_set_ne (l : List Nat) (i j a d : Nat) (h : i ≠ j) :
    (l.set i a).getD j d = l.getD j d := by
  unfold List.getD
  rw [List.get?_eq_getElem?, List.get?_eq_getElem?, List.getElem?_set_ne h]

theorem getD_set_eq (l : List Nat) (i d a : Nat) (h : i < l.length) :
    (l.set i a).getD i d = a := by
  unfold List.getD
  rw [List.get?_eq_getElem?, List.getElem?_set_eq_of_lt a h]
  rfl

theorem crc16_lt_aux (l : List Nat) (s : Nat) (hs : s < 65536) :
    l.foldl crcByteStep s < 65536 := by
  induction l generalizing s with
  | nil => simpa using hs
  | cons c l ih => exact ih _ (crcByteStep_lt s c)

theorem crc16_lt (l : List Nat) : crc16 l < 65536 :=
  crc16_lt_aux l 0 (by norm_num)

/-! ## Claim C4: byte retry in vCOMM_SendMessage (code bug)

The comment in `vCOMM_SendMessage` says the loop-count decrement serves
"to attempt to resend the byte", but `*pBuff++` has already advanced
the buffer pointer on the failed attempt, so the next attempt transmits
the following byte instead of the failed one; the error count is also
cumulative over the whole message rather than per-byte.  The theorem
runs the model on a 4-byte message (so 6 bytes with CRC, the CRC of
`[9, 4, 120, 0]` being 0xAE47 = 174, 71) with the first attempt failing:
the seven attempts transmit `[9, 4, 120, 0, 174, 71, 0]` — after the
failed first byte the loop moves on to the second byte 4 instead of
resending 9, and the last attempt reads past the end of the buffer.  A
second run injects five scattered failures: the message is abandoned on
the fifth cumulative error even though no five failures are
consecutive. -/
theorem vCOMM_SendMessage_failed_byte_not_resent :
    vCOMM_SendMessage [9, 4, 120, 0] 4 [false, true, true, true, true, true, true] =
      (some ([9, 4, 120, 0, 174, 71, 0], false), [9, 4, 120, 0, 174, 71]) ∧
    (9 : Nat) ≠ 4 ∧
    (vCOMM_SendMessage [9, 4, 120, 0] 4
        [false, true, false, true, false, true, false, true, false]).1 =
      some ([9, 4, 120, 0, 174, 71, 0, 0, 0], true) := by
  decide

/-! ## Claim C6: 5TM line parsing (corrected)

For the two-field line `"1234 567"` + CR + type byte `x` (0x78) the
temperature loop stops at the space (index 4) having read 567, the
index is then moved down by two to 2, and the moisture loop converts
only bytes 1 and 0, yielding 12 — not 1234.  (The code's skip of two
positions below the space fits the three-field line format the real
5TM sensor emits.) -/
theorem cSTM_ReadValue_two_field_line_counterexample :
    (cSTM_ReadValue [49, 50, 51, 52, 32, 53, 54, 55, 13, 120]).map Prod.fst ≠
      some 1234 := by
  decide

/-- Claim C6 amended: on the model-A (5TM) buffer `"1234 567"` + CR +
type byte 0x78 the parser stores temperature 567 but soil moisture 12:
after the temperature digits the index is moved two positions below the
space, so only the first two moisture digits are converted. -/
theorem cSTM_ReadValue_two_field_line :
    cSTM_ReadValue [49, 50, 51, 52, 32, 53, 54, 55, 13, 120] = some (12, 567) := by
  decide

/-! ## Claim C7: ACK handling in ucCOMM_SendByte (code bug)

`ucCOMM_SendByte` samples the ACK as `P_SDA_IN & SDA_PIN`, which is 2
when the data line is high (NACK) and 0 when low, but then compares the
sample with 1.  The comparison can never hold, so the routine returns
`COMM_OK` even on a NACK, contradicting the declared meaning of
`COMM_ACK_ERR` ("the ack bit was not received").  The theorem evaluates
the model at a NACK (data line high during the ACK bit): the byte 0xA5
is framed LSB first with even parity (four set bits, parity 0), the
nine transmitted bit levels are as transmitted bit 0 first, and the
return code is `COMM_OK`, not `COMM_ACK_ERR`.  A busy transmitter
instead returns `COMM_ERROR` without transmitting. -/
theorem ucCOMM_SendByte_ack_never_fails :
    (ucCOMM_SendByte ⟨COMM_RUNNING, [], 0⟩ 0xA5 true).2.1 = COMM_OK ∧
    (ucCOMM_SendByte ⟨COMM_RUNNING, [], 0⟩ 0xA5 true).2.2 =
      [true, false, true, false, false, true, false, true, false] ∧
    COMM_OK ≠ COMM_ACK_ERR ∧
    ucCOMM_SendByte ⟨COMM_RUNNING ||| COMM_TX_BUSY, [], 0⟩ 0xA5 true =
      (⟨COMM_RUNNING ||| COMM_TX_BUSY, [], 0⟩, COMM_ERROR, []) := by
  decide

/-! ## Claim C10: failure paths of ucCOMM_GrabMessageFromBuffer -/

/-- Claim C10: `ucCOMM_GrabMessageFromBuffer` writes to the caller's
destination buffer and resets the receive index only when it returns
`COMM_OK`; on every failure path (receive index below the header size,
declared length above the maximum, CRC mismatch) both the destination
buffer and the state are left unchanged.  On success the receive index
is reset to 0 and the receive buffer and flags are untouched. -/
theorem ucCOMM_GrabMessageFromBuffer_failure_frame (st : CommState)
    (pucBuff : List Nat) :
    ((ucCOMM_GrabMessageFromBuffer st pucBuff).1 ≠ COMM_OK →
      (ucCOMM_GrabMessageFromBuffer st pucBuff).2.1 = st ∧
      (ucCOMM_GrabMessageFromBuffer st pucBuff).2.2 = pucBuff) ∧
    ((ucCOMM_GrabMessageFromBuffer st pucBuff).1 = COMM_OK →
      (ucCOMM_GrabMessageFromBuffer st pucBuff).2.1.rxIdx = 0 ∧
      (ucCOMM_GrabMessageFromBuffer st pucBuff).2.1.rxBuf = st.rxBuf ∧
      (ucCOMM_GrabMessageFromBuffer st pucBuff).2.1.flags = st.flags) := by
  unfold ucCOMM_GrabMessageFromBuffer
  by_cases h1 : st.rxIdx < SP_HEADERSIZE
  · rw [if_pos h1]
    simp [COMM_OK, COMM_BUFFER_UNDERFLOW]
  · rw [if_neg h1]
    by_cases h2 : st.rxBuf.getD MSG_LEN_IDX 0 > MAXMSGLEN
    · rw [if_pos h2]
      simp [COMM_OK, COMM_BUFFER_UNDERFLOW]
    · rw [if_neg h2]
      by_cases h3 : (ucCRC16_compute_msg_CRC CRC_FOR_MSG_TO_REC st.rxBuf
          (st.rxBuf.getD MSG_LEN_IDX 0 + CRC_SZ)).1 = 0
      · rw [if_pos h3]
        simp [COMM_OK, COMM_ERROR]
      · rw [if_neg h3]
        simp [COMM_OK]

/-- Witness for claim C10 at a concrete failing state: an empty receive
buffer (index 0) fails with underflow and leaves state and destination
unchanged. -/
theorem ucCOMM_GrabMessageFromBuffer_failure_frame_witness :
    (ucCOMM_GrabMessageFromBuffer ⟨1, [], 0⟩ [5, 6]).2.1 = ⟨1, [], 0⟩ ∧
    (ucCOMM_GrabMessageFromBuffer ⟨1, [], 0⟩ [5, 6]).2.2 = [5, 6] :=
  (ucCOMM_GrabMessageFromBuffer_failure_frame ⟨1, [], 0⟩ [5, 6]).1 (by decide)

/-! ## Claim C8: parity mismatch is sticky but non-gating -/

/-- Claim C8: when the receiver is not busy and the parity computed over
the eight sampled bits differs from the received parity bit,
`ucCOMM_ReceiveByte` sets the sticky `COMM_PARITY_ERR` flag but still
stores the assembled byte at the current receive index, advances the
index, and returns `COMM_OK`; and the result of
`ucCOMM_GrabMessageFromBuffer` is independent of the flags byte, so the
parity-error flag never gates message acceptance. -/
theorem ucCOMM_ReceiveByte_parity_sticky (st : CommState) (bits : List Bool)
    (rxParityHigh : Bool)
    (hbusy : st.flags &&& COMM_RX_BUSY = 0)
    (hmis : (bits.countP (fun b => b)) % 2 ≠ (if rxParityHigh then 1 else 0)) :
    ((ucCOMM_ReceiveByte st bits rxParityHigh).2 = COMM_OK ∧
     (ucCOMM_ReceiveByte st bits rxParityHigh).1.flags =
        st.flags ||| COMM_PARITY_ERR ∧
     (ucCOMM_ReceiveByte st bits rxParityHigh).1.rxBuf =
        st.rxBuf.set st.rxIdx (rxByteAssemble bits) ∧
     (ucCOMM_ReceiveByte st bits rxParityHigh).1.rxIdx = st.rxIdx + 1) ∧
    (∀ f₁ f₂ : Nat, ∀ buf dest : List Nat, ∀ idx : Nat,
      (ucCOMM_GrabMessageFromBuffer ⟨f₁, buf, idx⟩ dest).1 =
        (ucCOMM_GrabMessageFromBuffer ⟨f₂, buf, idx⟩ dest).1 ∧
      (ucCOMM_GrabMessageFromBuffer ⟨f₁, buf, idx⟩ dest).2.2 =
        (ucCOMM_GrabMessageFromBuffer ⟨f₂, buf, idx⟩ dest).2.2) := by
  constructor
  · have hb : ¬ st.flags &&& COMM_RX_BUSY ≠ 0 := by simpa using hbusy
    simp [ucCOMM_ReceiveByte, if_neg hb, if_pos hmis]
  · intro f₁ f₂ buf dest idx
    unfold ucCOMM_GrabMessageFromBuffer
    split_ifs <;> simp

/-- Witness for claim C8: the bits of 0xA5 (four set bits, even parity 0)
with a received parity bit of 1 form a mismatch; the byte is stored,
the index advances, the flag is set, and the return code is `COMM_OK`. -/
theorem ucCOMM_ReceiveByte_parity_sticky_witness :
    ((ucCOMM_ReceiveByte ⟨COMM_RUNNING, [255, 255], 0⟩
        [true, false, true, false, false, true, false, true] true).2 = COMM_OK ∧
     (ucCOMM_ReceiveByte ⟨COMM_RUNNING, [255, 255], 0⟩
        [true, false, true, false, false, true, false, true] true).1.flags =
        COMM_RUNNING ||| COMM_PARITY_ERR ∧
     (ucCOMM_ReceiveByte ⟨COMM_RUNNING, [255, 255], 0⟩
        [true, false, true, false, false, true, false, true] true).1.rxBuf =
        [255, 255].set 0
          (rxByteAssemble [true, false, true, false, false, true, false, true]) ∧
     (ucCOMM_ReceiveByte ⟨COMM_RUNNING, [255, 255], 0⟩
        [true, false, true, false, false, true, false, true] true).1.rxIdx = 0 + 1) ∧
    ((ucCOMM_GrabMessageFromBuffer ⟨COMM_RUNNING ||| COMM_PARITY_ERR, [1, 2], 5⟩ []).1 =
       (ucCOMM_GrabMessageFromBuffer ⟨COMM_RUNNING, [1, 2], 5⟩ []).1 ∧
     (ucCOMM_GrabMessageFromBuffer ⟨COMM_RUNNING ||| COMM_PARITY_ERR, [1, 2], 5⟩ []).2.2 =
       (ucCOMM_GrabMessageFromBuffer ⟨COMM_RUNNING, [1, 2], 5⟩ []).2.2) := by
  have h := ucCOMM_ReceiveByte_parity_sticky ⟨COMM_RUNNING, [255, 255], 0⟩
    [true, false, true, false, false, true, false, true] true
    (by decide) (by decide)
  exact ⟨h.1, h.2 (COMM_RUNNING ||| COMM_PARITY_ERR) COMM_RUNNING [1, 2] [] 5⟩

/-! ## Claim C9: unknown message types get a bare ReportError reply -/

/-- Claim C9: for every well-framed received message whose type byte has
no dedicated case in the dispatch switch, the reply built by the default
case is a `REPORT_ERROR` message whose length field equals the header
size (no payload is added, the reply length is unchanged), and the
shutdown-permitted bit (bit 0 of the flags byte) is set exactly when the
shutdown-allowed collaborator returned true when the reply was built. -/
theorem vCORE_unknown_type_report_error (ucaMsg_Buff : List Nat) (sd : Bool)
    (htype : ucaMsg_Buff.getD MSG_TYP_IDX 0 ∉ dispatchedTypes)
    (hlen : SP_HEADERSIZE ≤ ucaMsg_Buff.length) :
    vCORE_DispatchSwitch ucaMsg_Buff sd =
      some (vCORE_UnknownTypeReply ucaMsg_Buff sd) ∧
    (vCORE_UnknownTypeReply ucaMsg_Buff sd).getD MSG_TYP_IDX 0 = REPORT_ERROR ∧
    (vCORE_UnknownTypeReply ucaMsg_Buff sd).getD MSG_LEN_IDX 0 = SP_HEADERSIZE ∧
    (vCORE_UnknownTypeReply ucaMsg_Buff sd).getD MSG_VER_IDX 0 =
      SP_DATAMESSAGE_VERSION ∧
    ((vCORE_UnknownTypeReply ucaMsg_Buff sd).getD MSG_FLAGS_IDX 0).testBit 0 = sd ∧
    (vCORE_UnknownTypeReply ucaMsg_Buff sd).length = ucaMsg_Buff.length := by
  have hdisp : vCORE_DispatchSwitch ucaMsg_Buff sd =
      some (vCORE_UnknownTypeReply ucaMsg_Buff sd) := by
    unfold vCORE_DispatchSwitch
    rw [if_neg htype]
  have hlen0 : (0 : Nat) < ucaMsg_Buff.length := by
    simp [SP_HEADERSIZE] at hlen; omega
  have hlen1 : (1 : Nat) < ucaMsg_Buff.length := by
    simp [SP_HEADERSIZE] at hlen; omega
  have hlen2 : (2 : Nat) < ucaMsg_Buff.length := by
    simp [SP_HEADERSIZE] at hlen; omega
  have hlen3 : (3 : Nat) < ucaMsg_Buff.length := by
    simp [SP_HEADERSIZE] at hlen; omega
  refine ⟨hdisp, ?_, ?_, ?_, ?_, ?_⟩ <;>
    unfold vCORE_UnknownTypeReply <;>
    cases sd <;>
    simp only [if_true, if_false, Bool.false_eq_true, MSG_TYP_IDX, MSG_LEN_IDX,
      MSG_VER_IDX, MSG_FLAGS_IDX]
  all_goals
    simp [getD_set_ne, getD_set_eq, List.length_set, hlen0, hlen1, hlen2, hlen3,
      Nat.testBit_or, SHUTDOWN_BIT]

/-- Witness for claim C9 at a concrete unknown type (0x03, PROGRAM_CODE,
which has no dispatch case): the reply is a ReportError with the
shutdown bit set when the collaborator allows shutdown. -/
theorem vCORE_unknown_type_report_error_witness :
    (vCORE_UnknownTypeReply [3, 6, 120, 255, 1, 2] true).getD MSG_TYP_IDX 0 =
      REPORT_ERROR ∧
    (vCORE_UnknownTypeReply [3, 6, 120, 255, 1, 2] true).getD MSG_LEN_IDX 0 =
      SP_HEADERSIZE ∧
    ((vCORE_UnknownTypeReply [3, 6, 120, 255, 1, 2] true).getD
      MSG_FLAGS_IDX 0).testBit 0 = true := by
  have h := vCORE_unknown_type_report_error [3, 6, 120, 255, 1, 2] true
    (by decide) (by decide)
  exact ⟨h.2.1, h.2.2.1, h.2.2.2.2.1⟩

/-! ## Claim C3: report-slot draining (corrected)

`ucMain_FetchData` assembles the (id, length, bytes) groups of the
flagged slots in ascending id order, but it never writes to `S_Report`:
the `F_NEWDATA` flags are not cleared after the drain, so a second
drain with no newly flagged data returns the same nonzero payload
again instead of length 0. -/

/-- Counterexample for claim C3: with slots 2 and 5 flagged, the first
drain returns the two groups and length 7, leaves the slot table (and
its flags) unchanged, and a second drain over the resulting table
returns length 7 again, not 0. -/
theorem ucMain_FetchData_no_flag_clear_counterexample :
    (ucMain_FetchData [⟨[0, 0, 0, 0], 0, 0⟩, ⟨[0, 0, 0, 0], 0, 0⟩,
        ⟨[170, 187, 0, 0], 2, 1⟩, ⟨[0, 0, 0, 0], 0, 0⟩, ⟨[0, 0, 0, 0], 0, 0⟩,
        ⟨[204, 0, 0, 0], 1, 1⟩, ⟨[0, 0, 0, 0], 0, 0⟩, ⟨[0, 0, 0, 0], 0, 0⟩,
        ⟨[0, 0, 0, 0], 0, 0⟩]).2.2 =
      [⟨[0, 0, 0, 0], 0, 0⟩, ⟨[0, 0, 0, 0], 0, 0⟩,
        ⟨[170, 187, 0, 0], 2, 1⟩, ⟨[0, 0, 0, 0], 0, 0⟩, ⟨[0, 0, 0, 0], 0, 0⟩,
        ⟨[204, 0, 0, 0], 1, 1⟩, ⟨[0, 0, 0, 0], 0, 0⟩, ⟨[0, 0, 0, 0], 0, 0⟩,
        ⟨[0, 0, 0, 0], 0, 0⟩] ∧
    (ucMain_FetchData
      (ucMain_FetchData [⟨[0, 0, 0, 0], 0, 0⟩, ⟨[0, 0, 0, 0], 0, 0⟩,
        ⟨[170, 187, 0, 0], 2, 1⟩, ⟨[0, 0, 0, 0], 0, 0⟩, ⟨[0, 0, 0, 0], 0, 0⟩,
        ⟨[204, 0, 0, 0], 1, 1⟩, ⟨[0, 0, 0, 0], 0, 0⟩, ⟨[0, 0, 0, 0], 0, 0⟩,
        ⟨[0, 0, 0, 0], 0, 0⟩]).2.2).2.1 = 7 ∧
    (7 : Nat) ≠ 0 := by
  decide

/-- Claim C3 amended: with exactly slots 2 and 5 of the nine report
slots flagged new, `ucMain_FetchData` assembles a payload of exactly
the two (id, length, bytes) groups in ascending id order, of total
length `len2 + len5 + 4`; the slot table, including both `F_NEWDATA`
flags, is returned unchanged (the code never clears the flags), so a
second drain returns the identical result. -/
theorem ucMain_FetchData_slots_2_5 (s0 s1 s2 s3 s4 s5 s6 s7 s8 : SReport)
    (h0 : s0.m_ucFlags &&& F_NEWDATA = 0) (h1 : s1.m_ucFlags &&& F_NEWDATA = 0)
    (h2 : s2.m_ucFlags &&& F_NEWDATA ≠ 0) (h3 : s3.m_ucFlags &&& F_NEWDATA = 0)
    (h4 : s4.m_ucFlags &&& F_NEWDATA = 0) (h5 : s5.m_ucFlags &&& F_NEWDATA ≠ 0)
    (h6 : s6.m_ucFlags &&& F_NEWDATA = 0) (h7 : s7.m_ucFlags &&& F_NEWDATA = 0)
    (h8 : s8.m_ucFlags &&& F_NEWDATA = 0) :
    ucMain_FetchData [s0, s1, s2, s3, s4, s5, s6, s7, s8] =
      (2 :: s2.m_ucLength :: s2.m_ucaData.take s2.m_ucLength ++
        5 :: s5.m_ucLength :: s5.m_ucaData.take s5.m_ucLength,
       s2.m_ucLength + 2 + (s5.m_ucLength + 2),
       [s0, s1, s2, s3, s4, s5, s6, s7, s8]) ∧
    ucMain_FetchData (ucMain_FetchData [s0, s1, s2, s3, s4, s5, s6, s7, s8]).2.2 =
      ucMain_FetchData [s0, s1, s2, s3, s4, s5, s6, s7, s8] := by
  have hloop : ∀ n : Nat, ucMain_FetchData_loop [] n = ([], 0) := fun n => rfl
  constructor
  · unfold ucMain_FetchData
    simp only [ucMain_FetchData_loop, h0, h1, h2, h3, h4, h5, h6, h7, h8,
      if_pos, if_neg, ne_eq, not_true, not_false_iff, ite_false, ite_true]
    simp [h0, h1, h2, h3, h4, h5, h6, h7, h8]
  · unfold ucMain_FetchData
    rfl

/-- Witness for claim C3 amended at a concrete slot table with slots 2
and 5 flagged: the drain returns the two groups in ascending order and
leaves the table unchanged, so a second drain is identical. -/
theorem ucMain_FetchData_slots_2_5_witness :
    ucMain_FetchData [⟨[0, 0, 0, 0], 0, 0⟩, ⟨[0, 0, 0, 0], 0, 0⟩,
        ⟨[10, 11, 0, 0], 2, 1⟩, ⟨[0, 0, 0, 0], 0, 0⟩, ⟨[0, 0, 0, 0], 0, 0⟩,
        ⟨[12, 0, 0, 0], 1, 1⟩, ⟨[0, 0, 0, 0], 0, 0⟩, ⟨[0, 0, 0, 0], 0, 0⟩,
        ⟨[0, 0, 0, 0], 0, 0⟩] =
      (2 :: (2 : Nat) :: [10, 11, 0, 0].take 2 ++ 5 :: (1 : Nat) :: [12, 0, 0, 0].take 1,
       2 + 2 + (1 + 2),
       [⟨[0, 0, 0, 0], 0, 0⟩, ⟨[0, 0, 0, 0], 0, 0⟩,
        ⟨[10, 11, 0, 0], 2, 1⟩, ⟨[0, 0, 0, 0], 0, 0⟩, ⟨[0, 0, 0, 0], 0, 0⟩,
        ⟨[12, 0, 0, 0], 1, 1⟩, ⟨[0, 0, 0, 0], 0, 0⟩, ⟨[0, 0, 0, 0], 0, 0⟩,
        ⟨[0, 0, 0, 0], 0, 0⟩]) :=
  (ucMain_FetchData_slots_2_5 ⟨[0, 0, 0, 0], 0, 0⟩ ⟨[0, 0, 0, 0], 0, 0⟩
    ⟨[10, 11, 0, 0], 2, 1⟩ ⟨[0, 0, 0, 0], 0, 0⟩ ⟨[0, 0, 0, 0], 0, 0⟩
    ⟨[12, 0, 0, 0], 1, 1⟩ ⟨[0, 0, 0, 0], 0, 0⟩ ⟨[0, 0, 0, 0], 0, 0⟩
    ⟨[0, 0, 0, 0], 0, 0⟩ (by decide) (by decide) (by decide) (by decide)
    (by decide) (by decide) (by decide) (by decide) (by decide)).1

/-! ## Claim C1: length gate of the message receive loop (corrected)

`ucCOMM_WaitForMessage` compares the declared length byte plus the
2-byte CRC trailer against `[SP_HEADERSIZE, MAXMSGLEN]`, so the
accepted declared lengths are `[2, 62]`, not `[4, 64]`; and on a
violation it returns the generic `COMM_ERROR` (0x04), not
`COMM_BUFFER_UNDERFLOW`/`COMM_BUFFER_OVERFLOW`. -/

/-- Counterexample for claim C1: the declared length 64 lies in the
claimed acceptance interval `[4, 64]`, and a full 66-byte transmission
is available, yet the receive loop rejects right after the header with
the generic `COMM_ERROR` (which is neither of the
BufferUnderflow/Overflow codes). -/
theorem ucCOMM_WaitForMessage_len64_rejected :
    (SP_HEADERSIZE ≤ 64 ∧ 64 ≤ MAXMSGLEN) ∧
    ucCOMM_WaitForMessage ([8, 64, 120, 0] ++ List.replicate 62 7) =
      some (COMM_ERROR, [8, 64, 120, 0]) ∧
    COMM_ERROR ≠ COMM_OK ∧
    COMM_ERROR ≠ COMM_BUFFER_UNDERFLOW ∧ COMM_ERROR ≠ COMM_BUFFER_OVERFLOW := by
  decide

/-- Unfolding of the four header bytes of the receive loop: after the
fourth byte the expected size becomes the declared length byte plus
`CRC_SZ` and is range checked, before any payload byte is consumed. -/
theorem wfm_head (a b c d : Nat) (rest : List Nat) :
    ucCOMM_WaitForMessage (a :: b :: c :: d :: rest) =
      if b + CRC_SZ > MAXMSGLEN ∨ b + CRC_SZ < SP_HEADERSIZE then
        some (COMM_ERROR, [a, b, c, d])
      else if 4 = b + CRC_SZ then
        some (COMM_OK, [a, b, c, d])
      else
        waitForMessageLoop rest [a, b, c, d] (b + CRC_SZ) := by
  simp [ucCOMM_WaitForMessage, waitForMessageLoop, SP_HEADERSIZE, MSG_LEN_IDX,
    CRC_SZ, MAXMSGLEN, List.getD_cons_succ, List.getD_cons_zero]

/-- After the header has been read (at least four bytes in the buffer)
the loop only appends bytes until the buffer reaches the expected size,
then succeeds. -/
theorem waitForMessageLoop_drain (rest : List Nat) : ∀ (buf : List Nat) (size : Nat),
    4 ≤ buf.length → buf.length < size → size ≤ buf.length + rest.length →
    waitForMessageLoop rest buf size =
      some (COMM_OK, buf ++ rest.take (size - buf.length)) := by
  induction rest with
  | nil =>
      intro buf size h4 hlt hle
      simp only [List.length_nil, Nat.add_zero] at hle
      omega
  | cons b rest ih =>
      intro buf size h4 hlt hle
      have hne4 : ¬ ((buf ++ [b]).length = SP_HEADERSIZE) := by
        simp [SP_HEADERSIZE]
        omega
      rw [waitForMessageLoop, if_neg hne4]
      by_cases heq : (buf ++ [b]).length = size
      · rw [if_pos heq]
        have h1 : size - buf.length = 1 := by
          simp at heq
          omega
        rw [h1, List.take_succ_cons, List.take_zero]
      · rw [if_neg heq]
        have hlen : (buf ++ [b]).length = buf.length + 1 := by simp
        rw [ih (buf ++ [b]) size (by omega) (by simp at heq; omega)
          (by simp only [List.length_append, List.length_cons, List.length_nil,
                Nat.add_zero] at hle ⊢; omega)]
        have h2 : size - buf.length = (size - (buf.length + 1)) + 1 := by omega
        rw [h2, List.take_succ_cons, hlen]
        simp

/-- Claim C1 amended: for every incoming byte stream carrying at least a
header, the receive loop succeeds exactly when the declared length byte
lies in `[2, 62]` — equivalently, when declared length + 2 CRC bytes
lies in `[SP_HEADERSIZE, MAXMSGLEN]` = `[4, 64]` — consuming exactly
declared length + 2 bytes; for every declared length outside `[2, 62]`
it fails with the generic `COMM_ERROR` right after the fourth header
byte, before any payload byte is consumed. -/
theorem ucCOMM_WaitForMessage_length_gate (input : List Nat)
    (hlen : SP_HEADERSIZE ≤ input.length) :
    (2 ≤ input.getD MSG_LEN_IDX 0 → input.getD MSG_LEN_IDX 0 ≤ 62 →
      input.getD MSG_LEN_IDX 0 + CRC_SZ ≤ input.length →
      ucCOMM_WaitForMessage input =
        some (COMM_OK, input.take (input.getD MSG_LEN_IDX 0 + CRC_SZ))) ∧
    (input.getD MSG_LEN_IDX 0 < 2 ∨ 62 < input.getD MSG_LEN_IDX 0 →
      ucCOMM_WaitForMessage input =
        some (COMM_ERROR, input.take SP_HEADERSIZE)) := by
  match input, hlen with
  | a :: b :: c :: d :: rest, _ =>
    have hb : (a :: b :: c :: d :: rest).getD MSG_LEN_IDX 0 = b := rfl
    rw [hb]
    constructor
    · intro h2 h62 hle
      rw [wfm_head]
      rw [if_neg (by simp [CRC_SZ, MAXMSGLEN, SP_HEADERSIZE]; omega)]
      by_cases hb2 : b = 2
      · subst hb2
        rw [if_pos (by norm_num [CRC_SZ])]
        simp [CRC_SZ, SP_HEADERSIZE, List.take_succ_cons]
      · rw [if_neg (by simp [CRC_SZ]; omega)]
        rw [waitForMessageLoop_drain rest [a, b, c, d] (b + CRC_SZ)
          (by simp) (by simp [CRC_SZ]; omega)
          (by simp at hle ⊢; simp [CRC_SZ] at hle ⊢; omega)]
        have ht : (a :: b :: c :: d :: rest).take (b + CRC_SZ) =
            [a, b, c, d] ++ rest.take (b + CRC_SZ - 4) := by
          have h4 : b + CRC_SZ = (b + CRC_SZ - 4) + 4 := by simp [CRC_SZ]; omega
          rw [h4]
          simp [List.take_succ_cons]
        rw [ht]
        norm_num
    · intro hKO
      rw [wfm_head]
      rw [if_pos (by simp [CRC_SZ, MAXMSGLEN, SP_HEADERSIZE]; omega)]
      simp [SP_HEADERSIZE, List.take_succ_cons]

/-- Witness for claim C1 amended: a declared length of 6 with eight
bytes on the stream is accepted in full, and a declared length of 63
(inside the claimed `[4, 64]` but above 62) is rejected with
`COMM_ERROR` right after the header. -/
theorem ucCOMM_WaitForMessage_length_gate_witness :
    ucCOMM_WaitForMessage [8, 6, 120, 0, 5, 6, 7, 7] =
      some (COMM_OK, List.take (List.getD [8, 6, 120, 0, 5, 6, 7, 7] MSG_LEN_IDX 0 + CRC_SZ)
        [8, 6, 120, 0, 5, 6, 7, 7]) ∧
    ucCOMM_WaitForMessage [8, 63, 120, 0] =
      some (COMM_ERROR, List.take SP_HEADERSIZE [8, 63, 120, 0]) :=
  ⟨(ucCOMM_WaitForMessage_length_gate [8, 6, 120, 0, 5, 6, 7, 7] (by decide)).1
      (by decide) (by decide) (by decide),
   (ucCOMM_WaitForMessage_length_gate [8, 63, 120, 0] (by decide)).2 (by decide)⟩

/-! ## Claim C2: CRC round trip and single-byte corruption -/

/-- In send mode `vCOMM_SendMessage` leaves the buffer as the message
followed by the two CRC bytes of the message, high byte first. -/
theorem sendMessage_crc_buffer (msg : List Nat)
    (hL : msg.getD MSG_LEN_IDX 0 = msg.length) :
    (vCOMM_SendMessage msg (msg.getD MSG_LEN_IDX 0) []).2 =
      msg ++ [crc16 msg >>> 8, crc16 msg &&& 0xFF] := by
  rw [hL]
  simp only [vCOMM_SendMessage, ucCRC16_compute_msg_CRC, CRC_SZ, if_pos,
    Nat.add_sub_cancel, List.take_length]
  rw [List.drop_eq_nil_of_le (by omega)]
  simp

/-- Rolling the CRC over a message extended by its own CRC trailer
yields 0, which is what receive mode accepts. -/
theorem crc16_append_crc (msg : List Nat) :
    crc16 (msg ++ [crc16 msg >>> 8, crc16 msg &&& 0xFF]) = 0 := by
  unfold crc16
  rw [List.foldl_append]
  simp only [List.foldl_cons, List.foldl_nil]
  exact crc_append_self _

/-- Claim C2: for every message with declared length `L` in `[4, 64]`
(the declared length byte matching the message length, bytes in range),
appending the 16-bit CRC in send mode as `vCOMM_SendMessage` does via
`ucCRC16_compute_msg_CRC` and then verifying in receive mode over the
`L + 2` received bytes as `ucCOMM_GrabMessageFromBuffer` does accepts
the message; and corrupting any single payload byte of the
round-tripped message makes the verification fail with `COMM_ERROR`. -/
theorem vCOMM_SendMessage_roundtrip_crc (msg : List Nat)
    (h4 : SP_HEADERSIZE ≤ msg.length) (h64 : msg.length ≤ MAXMSGLEN)
    (hL : msg.getD MSG_LEN_IDX 0 = msg.length)
    (hbytes : ∀ x ∈ msg, x < 256) (f : Nat) (dest : List Nat) :
    (ucCOMM_GrabMessageFromBuffer
        ⟨f, (vCOMM_SendMessage msg (msg.getD MSG_LEN_IDX 0) []).2,
          msg.length + CRC_SZ⟩ dest).1 = COMM_OK ∧
    (∀ i b, SP_HEADERSIZE ≤ i → i < msg.length → b < 256 → b ≠ msg.getD i 0 →
      (ucCOMM_GrabMessageFromBuffer
          ⟨f, ((vCOMM_SendMessage msg (msg.getD MSG_LEN_IDX 0) []).2).set i b,
            msg.length + CRC_SZ⟩ dest).1 = COMM_ERROR) := by
  simp only [SP_HEADERSIZE] at h4
  simp only [MAXMSGLEN] at h64
  rw [sendMessage_crc_buffer msg hL]
  have hi256 : crc16 msg >>> 8 < 256 := by
    have := crc16_lt msg
    rw [Nat.shiftRight_eq_div_pow]
    omega
  have hlo256 : crc16 msg &&& 0xFF < 256 := Nat.lt_succ_of_le (Nat.and_le_right)
  have hlen2 : (msg ++ [crc16 msg >>> 8, crc16 msg &&& 0xFF]).length =
      msg.length + 2 := by simp
  have hget1 : (msg ++ [crc16 msg >>> 8, crc16 msg &&& 0xFF]).getD MSG_LEN_IDX 0 =
      msg.length := by
    rw [List.getD_append _ _ _ _ (by simp only [MSG_LEN_IDX]; omega), hL]
  have hmem : ∀ x ∈ msg ++ [crc16 msg >>> 8, crc16 msg &&& 0xFF], x < 256 := by
    intro x hx
    simp only [List.mem_append, List.mem_cons, List.mem_singleton] at hx
    rcases hx with hx | hx | hx
    · exact hbytes x hx
    · rw [hx]; exact hi256
    · simp at hx; rw [hx]; exact hlo256
  constructor
  · unfold ucCOMM_GrabMessageFromBuffer
    rw [if_neg (by simp only [SP_HEADERSIZE, CRC_SZ]; omega)]
    rw [hget1]
    rw [if_neg (by simp only [MAXMSGLEN]; omega)]
    have hcrc : (ucCRC16_compute_msg_CRC CRC_FOR_MSG_TO_REC
        (msg ++ [crc16 msg >>> 8, crc16 msg &&& 0xFF]) (msg.length + CRC_SZ)).1 = 1 := by
      unfold ucCRC16_compute_msg_CRC
      rw [if_neg (by decide)]
      rw [List.take_of_length_le (by rw [hlen2]; simp [CRC_SZ])]
      rw [crc16_append_crc]
      simp
    rw [hcrc]
    simp
  · intro i b hi4 hiL hb256 hbne
    simp only [SP_HEADERSIZE] at hi4
    have hset1 : ((msg ++ [crc16 msg >>> 8, crc16 msg &&& 0xFF]).set i b).getD
        MSG_LEN_IDX 0 = msg.length := by
      rw [getD_set_ne _ _ _ _ _ (by simp only [MSG_LEN_IDX]; omega), hget1]
    unfold ucCOMM_GrabMessageFromBuffer
    rw [if_neg (by simp only [SP_HEADERSIZE, CRC_SZ]; omega)]
    rw [hset1]
    rw [if_neg (by simp only [MAXMSGLEN]; omega)]
    have hbne2 : b ≠ (msg ++ [crc16 msg >>> 8, crc16 msg &&& 0xFF]).getD i 0 := by
      rw [List.getD_append _ _ _ _ hiL]
      exact hbne
    have hcrcbad : (ucCRC16_compute_msg_CRC CRC_FOR_MSG_TO_REC
        ((msg ++ [crc16 msg >>> 8, crc16 msg &&& 0xFF]).set i b)
        (msg.length + CRC_SZ)).1 = 0 := by
      unfold ucCRC16_compute_msg_CRC
      rw [if_neg (by decide)]
      rw [List.take_of_length_le (by rw [List.length_set, hlen2]; simp [CRC_SZ])]
      have hne : crc16 ((msg ++ [crc16 msg >>> 8, crc16 msg &&& 0xFF]).set i b) ≠ 0 := by
        have h := crc16_set_ne (msg ++ [crc16 msg >>> 8, crc16 msg &&& 0xFF]) i b
          (by rw [hlen2]; omega) hb256 hmem hbne2
        rw [crc16_append_crc] at h
        exact h
      rw [if_neg hne]
    rw [hcrcbad]
    simp

/-- Witness for claim C2: the 6-byte message `[1, 6, 120, 0, 5, 6]`
round-trips through CRC append and receive-mode verification, and
corrupting payload byte 4 from 5 to 9 makes verification fail. -/
theorem vCOMM_SendMessage_roundtrip_crc_witness :
    (ucCOMM_GrabMessageFromBuffer
        ⟨COMM_RUNNING, (vCOMM_SendMessage [1, 6, 120, 0, 5, 6]
            (List.getD [1, 6, 120, 0, 5, 6] MSG_LEN_IDX 0) []).2,
          (6 : Nat) + CRC_SZ⟩ []).1 = COMM_OK ∧
    (ucCOMM_GrabMessageFromBuffer
        ⟨COMM_RUNNING, ((vCOMM_SendMessage [1, 6, 120, 0, 5, 6]
            (List.getD [1, 6, 120, 0, 5, 6] MSG_LEN_IDX 0) []).2).set 4 9,
          (6 : Nat) + CRC_SZ⟩ []).1 = COMM_ERROR := by
  have h := vCOMM_SendMessage_roundtrip_crc [1, 6, 120, 0, 5, 6]
    (by decide) (by decide) (by decide) (by decide) COMM_RUNNING []
  exact ⟨h.1, h.2 4 9 (by decide) (by decide) (by decide) (by decide)⟩

/-! ## Claim C5: sensor checksum validator (corrected)

`cSTM_Test_Checksum` sums the buffer as signed chars (the RX buffer is
a `char` array) with the C truncated `%`, and acceptance compares the
byte two past the first terminator against `(sum % 64) + 32`; but
mutating a single summed byte does not always cause rejection: a
mutation whose delta is a multiple of 64 leaves the checksum unchanged,
and a mutation to 0x0D can move the terminator. -/

/-- Counterexample for claim C5: the buffer `[1, 13, 0, 46]` is accepted
(sum 1 + 13 + 0 = 14, 14 % 64 + 32 = 46), and mutating summed byte 0
from 1 to 65 (delta 64) leaves it accepted, where the claim demands
rejection for every single-byte mutation of a summed byte. -/
theorem cSTM_Test_Checksum_delta64_counterexample :
    cSTM_Test_Checksum [1, 13, 0, 46] = some 0 ∧
    cSTM_Test_Checksum [65, 13, 0, 46] = some 0 ∧
    (65 : Nat) ≠ 1 := by
  decide

theorem take_set_of_le (l : List Nat) (m n x : Nat) (h : n ≤ m) :
    (l.set m x).take n = l.take n := by
  induction l generalizing m n with
  | nil => simp
  | cons a l ih =>
    cases n with
    | zero => simp
    | succ n =>
      cases m with
      | zero => omega
      | succ m =>
        simp only [List.set_cons_succ, List.take_succ_cons]
        rw [ih m n (by omega)]

theorem toSigned_inj (a b : Nat) (ha : a < 256) (hb : b < 256)
    (h : toSigned a = toSigned b) : a = b := by
  unfold toSigned at h
  split_ifs at h <;> omega

theorem stmChecksumScan_go (buf : List Nat) (k : Nat) (hk : k < buf.length)
    (hterm : buf.getD k 0 = 0x0D)
    (hfirst : ∀ j, 1 ≤ j → j < k → buf.getD j 0 ≠ 0x0D) :
    ∀ (fuel idx : Nat) (add : Int), idx < k → k - idx ≤ fuel →
      stmChecksumScan buf idx add fuel =
        some (add + (((buf.drop idx).take (k - idx)).map toSigned).sum, k) := by
  intro fuel
  induction fuel with
  | zero => intro idx add hik hfu; omega
  | succ fuel ih =>
    intro idx add hik hfu
    have hidxlen : idx < buf.length := by omega
    unfold stmChecksumScan
    rw [if_pos (by omega)]
    have hdropdec : buf.drop idx = buf.getD idx 0 :: buf.drop (idx + 1) := by
      rw [List.getD_eq_getElem buf 0 hidxlen]
      exact List.drop_eq_getElem_cons hidxlen
    by_cases hend : idx + 1 = k
    · rw [if_pos (by rw [hend]; exact hterm)]
      have h1 : k - idx = 1 := by omega
      rw [h1, hdropdec, List.take_succ_cons, List.take_zero]
      simp
      omega
    · have hlt : idx + 1 < k := by omega
      rw [if_neg (hfirst (idx + 1) (by omega) hlt)]
      rw [ih (idx + 1) (add + toSigned (buf.getD idx 0)) hlt (by omega)]
      have h2 : k - idx = (k - (idx + 1)) + 1 := by omega
      rw [h2, hdropdec, List.take_succ_cons]
      simp only [List.map_cons, List.sum_cons]
      congr 1
      ring_nf

theorem stmChecksumScan_spec (buf : List Nat) (k : Nat) (h1 : 1 ≤ k)
    (hk : k < buf.length) (hterm : buf.getD k 0 = 0x0D)
    (hfirst : ∀ j, 1 ≤ j → j < k → buf.getD j 0 ≠ 0x0D) :
    stmChecksumScan buf 0 0 buf.length =
      some (((buf.take k).map toSigned).sum, k) := by
  rw [stmChecksumScan_go buf k hk hterm hfirst buf.length 0 0 (by omega) (by omega)]
  simp

theorem take_two_more_sum (buf : List Nat) (k : Nat) (hlen : k + 2 ≤ buf.length) :
    ((buf.take (k + 2)).map toSigned).sum =
      ((buf.take k).map toSigned).sum + toSigned (buf.getD k 0) +
        toSigned (buf.getD (k + 1) 0) := by
  have hk : k < buf.length := by omega
  have hk1 : k + 1 < buf.length := by omega
  rw [show k + 2 = (k + 1) + 1 by rfl, List.take_succ, List.take_succ]
  rw [List.getElem?_eq_getElem hk, List.getElem?_eq_getElem hk1]
  rw [List.getD_eq_getElem buf 0 hk, List.getD_eq_getElem buf 0 hk1]
  simp only [Option.toList_some, List.map_append, List.sum_append, List.map_cons,
    List.map_nil, List.sum_cons, List.sum_nil]
  ring

theorem sum_map_toSigned_set (l : List Nat) (j v n : Nat) (hj : j < n)
    (hn : n ≤ l.length) :
    (((l.set j v).take n).map toSigned).sum =
      ((l.take n).map toSigned).sum + toSigned v - toSigned (l.getD j 0) := by
  have hjl : j < l.length := by omega
  have hdec : l.take n = l.take j ++ l.getD j 0 :: (l.drop (j + 1)).take (n - j - 1) := by
    conv_lhs => rw [show l = l.take j ++ l.drop j from (List.take_append_drop j l).symm]
    rw [List.drop_eq_getElem_cons hjl, List.getD_eq_getElem l 0 hjl]
    rw [List.take_append_eq_append_take]
    rw [List.take_of_length_le (by rw [List.length_take]; omega)]
    congr 1
    rw [List.length_take]
    have hmin : min j l.length = j := by omega
    rw [hmin]
    have hnj : n - j = (n - j - 1) + 1 := by omega
    rw [hnj, List.take_succ_cons]
    norm_num
  have hdec2 : (l.set j v).take n =
      l.take j ++ v :: (l.drop (j + 1)).take (n - j - 1) := by
    rw [List.set_eq_take_cons_drop v hjl]
    rw [List.take_append_eq_append_take]
    rw [List.take_of_length_le (by rw [List.length_take]; omega)]
    congr 1
    rw [List.length_take]
    have hmin : min j l.length = j := by omega
    rw [hmin]
    have hnj : n - j = (n - j - 1) + 1 := by omega
    rw [hnj, List.take_succ_cons]
    norm_num
  rw [hdec, hdec2]
  simp only [List.map_append, List.map_cons, List.sum_append, List.sum_cons]
  ring

/-- Claim C5 amended: with the first carriage-return terminator at
index `k ≥ 1` and the buffer long enough, `cSTM_Test_Checksum` accepts
exactly when the byte two past the terminator equals, as a signed char,
the C truncated remainder `(signed sum of bytes 0..k+1) % 64 + 32`;
mutating the checksum byte itself to any other value always causes
rejection; and mutating a single summed byte causes rejection provided
the mutation does not move the terminator (the new value is not 0x0D)
and changes the sum modulo 64 (with all bytes in the ASCII range, where
signed and unsigned readings agree). -/
theorem cSTM_Test_Checksum_amended (buf : List Nat) (k : Nat) (h1 : 1 ≤ k)
    (hterm : buf.getD k 0 = 0x0D)
    (hfirst : ∀ j, 1 ≤ j → j < k → buf.getD j 0 ≠ 0x0D)
    (hlen : k + 2 < buf.length)
    (hbytes : ∀ x ∈ buf, x < 256) :
    (cSTM_Test_Checksum buf = some 0 ↔
      toSigned (buf.getD (k + 2) 0) =
        Int.tmod (((buf.take (k + 2)).map toSigned).sum) 64 + 32) ∧
    (∀ c, c < 256 → c ≠ buf.getD (k + 2) 0 → cSTM_Test_Checksum buf = some 0 →
      cSTM_Test_Checksum (buf.set (k + 2) c) = some 1) ∧
    (∀ (j v : Nat), j < k → v < 128 → v ≠ 0x0D → (∀ x ∈ buf, x < 128) →
      ¬ ((64 : Int) ∣ ((v : Int) - (buf.getD j 0 : Int))) →
      cSTM_Test_Checksum buf = some 0 →
      cSTM_Test_Checksum (buf.set j v) = some 1) := by
  have hscan := stmChecksumScan_spec buf k h1 (by omega) hterm hfirst
  have hsum2 := take_two_more_sum buf k (by omega)
  have hmain : cSTM_Test_Checksum buf =
      some (if toSigned (buf.getD (k + 2) 0) =
        Int.tmod (((buf.take (k + 2)).map toSigned).sum) 64 + 32 then 0 else 1) := by
    unfold cSTM_Test_Checksum
    rw [hscan]
    dsimp only
    rw [if_pos hlen, ← hsum2]
  constructor
  · rw [hmain]
    by_cases hcond : toSigned (buf.getD (k + 2) 0) =
        Int.tmod (((buf.take (k + 2)).map toSigned).sum) 64 + 32
    · simp [hcond]
    · simp [hcond]
  constructor
  · -- mutating the checksum byte
    intro c hc hcne hacc
    have hb2 : buf.getD (k + 2) 0 < 256 :=
      hbytes _ (by rw [List.getD_eq_getElem buf 0 (by omega)]
                   exact List.getElem_mem (by omega))
    have hcond : toSigned (buf.getD (k + 2) 0) =
        Int.tmod (((buf.take (k + 2)).map toSigned).sum) 64 + 32 := by
      rw [hmain] at hacc
      simp only [Option.some.injEq] at hacc
      by_cases h : toSigned (buf.getD (k + 2) 0) =
          Int.tmod (((buf.take (k + 2)).map toSigned).sum) 64 + 32
      · exact h
      · rw [if_neg h] at hacc
        exact absurd hacc (by norm_num)
    -- the scan of the mutated buffer is unchanged
    have hscan2 : stmChecksumScan (buf.set (k + 2) c) 0 0 (buf.set (k + 2) c).length =
        some (((buf.take k).map toSigned).sum, k) := by
      have h := stmChecksumScan_spec (buf.set (k + 2) c) k h1
        (by rw [List.length_set]; omega)
        (by rw [getD_set_ne _ _ _ _ _ (by omega)]; exact hterm)
        (by intro j hj1 hjk
            rw [getD_set_ne _ _ _ _ _ (by omega)]
            exact hfirst j hj1 hjk)
      rw [take_set_of_le buf (k + 2) k c (by omega)] at h
      exact h
    unfold cSTM_Test_Checksum
    rw [hscan2]
    dsimp only
    rw [if_pos (by rw [List.length_set]; omega)]
    rw [getD_set_eq _ _ _ _ (by omega)]
    rw [getD_set_ne _ _ _ _ _ (by omega), getD_set_ne _ _ _ _ _ (by omega)]
    rw [if_neg (by
      intro hcontra
      apply hcne
      apply toSigned_inj c (buf.getD (k + 2) 0) hc hb2
      rw [hcontra, hcond, hsum2])]
  · -- mutating a summed byte
    intro j v hjk hv128 hv13 hall128 hdvd hacc
    have hjlen : j < buf.length := by omega
    have holdmem : buf.getD j 0 ∈ buf := by
      rw [List.getD_eq_getElem buf 0 hjlen]
      exact List.getElem_mem hjlen
    have hold128 : buf.getD j 0 < 128 := hall128 _ holdmem
    have hcond : toSigned (buf.getD (k + 2) 0) =
        Int.tmod (((buf.take (k + 2)).map toSigned).sum) 64 + 32 := by
      rw [hmain] at hacc
      simp only [Option.some.injEq] at hacc
      by_cases h : toSigned (buf.getD (k + 2) 0) =
          Int.tmod (((buf.take (k + 2)).map toSigned).sum) 64 + 32
      · exact h
      · rw [if_neg h] at hacc
        exact absurd hacc (by norm_num)
    have hscan3 : stmChecksumScan (buf.set j v) 0 0 (buf.set j v).length =
        some ((((buf.set j v).take k).map toSigned).sum, k) := by
      apply stmChecksumScan_spec (buf.set j v) k h1
        (by rw [List.length_set]; omega)
        (by rw [getD_set_ne _ _ _ _ _ (by omega)]; exact hterm)
      intro i hi1 hik
      by_cases hij : j = i
      · rw [← hij, getD_set_eq _ _ _ _ hjlen]
        simpa using hv13
      · rw [getD_set_ne _ _ _ _ _ hij]
        exact hfirst i hi1 hik
    unfold cSTM_Test_Checksum
    rw [hscan3]
    dsimp only
    rw [if_pos (by rw [List.length_set]; omega)]
    rw [getD_set_ne _ _ _ _ _ (by omega), getD_set_ne _ _ _ _ _ (by omega),
      getD_set_ne _ _ _ _ _ (by omega)]
    rw [sum_map_toSigned_set buf j v k hjk (by omega)]
    -- both the original and the mutated signed sums are nonnegative
    have hnonneg : ∀ m : Nat, m ≤ buf.length →
        0 ≤ ((buf.take m).map toSigned).sum := by
      intro m hm
      apply List.sum_nonneg
      intro x hx
      simp only [List.mem_map] at hx
      obtain ⟨y, hy, hxy⟩ := hx
      have : y < 128 := hall128 y (List.mem_of_mem_take hy)
      rw [← hxy]
      unfold toSigned
      rw [if_pos (by omega)]
      omega
    have hSk := hnonneg k (by omega)
    have htk : toSigned (buf.getD k 0) = 13 := by rw [hterm]; rfl
    have hk1mem : buf.getD (k + 1) 0 ∈ buf := by
      rw [List.getD_eq_getElem buf 0 (by omega)]
      exact List.getElem_mem (by omega)
    have htk1 : 0 ≤ toSigned (buf.getD (k + 1) 0) := by
      have := hall128 _ hk1mem
      unfold toSigned
      rw [if_pos (by omega)]
      omega
    have hvsig : toSigned v = (v : Int) := by unfold toSigned; rw [if_pos (by omega)]
    have holdsig : toSigned (buf.getD j 0) = (buf.getD j 0 : Int) := by
      unfold toSigned
      rw [if_pos (by omega)]
    rw [if_neg (by
      intro hcontra
      rw [hcond, hsum2] at hcontra
      set S := ((buf.take k).map toSigned).sum with hS
      set tk := toSigned (buf.getD k 0) with htkdef
      set tk1 := toSigned (buf.getD (k + 1) 0) with htk1def
      rw [hvsig, holdsig] at hcontra
      have h0 : 0 ≤ S + tk + tk1 := by omega
      have hold0 : (0 : Int) ≤ (buf.getD j 0 : Int) := by positivity
      have h0b : 0 ≤ S + (v : Int) - (buf.getD j 0 : Int) + tk + tk1 := by
        have hSrest := hnonneg k (by omega)
        -- the mutated sum is itself a sum of nonnegative signed bytes
        have : 0 ≤ (((buf.set j v).take k).map toSigned).sum := by
          apply List.sum_nonneg
          intro x hx
          simp only [List.mem_map] at hx
          obtain ⟨y, hy, hxy⟩ := hx
          have hymem : y ∈ buf.set j v := List.mem_of_mem_take hy
          have hy128 : y < 128 := by
            rcases List.mem_or_eq_of_mem_set hymem with hmem2 | hveq
            · exact hall128 y hmem2
            · omega
          rw [← hxy]
          unfold toSigned
          rw [if_pos (by omega)]
          omega
        rw [sum_map_toSigned_set buf j v k hjk (by omega), hvsig, holdsig] at this
        omega
      rw [Int.tmod_eq_emod h0b (by norm_num), Int.tmod_eq_emod h0 (by norm_num)] at hcontra
      have hmod : (S + (v : Int) - (buf.getD j 0 : Int) + tk + tk1) % 64 =
          (S + tk + tk1) % 64 := by omega
      have : (64 : Int) ∣ ((v : Int) - (buf.getD j 0 : Int)) := by omega
      exact hdvd this)]

/-- Witness for claim C5 amended at the buffer `[1, 13, 0, 46, 99]`
(terminator at index 1): the buffer is accepted, mutating the checksum
byte 46 to 47 is rejected, and mutating summed byte 0 from 1 to 2
(delta 1, not a multiple of 64) is rejected. -/
theorem cSTM_Test_Checksum_amended_witness :
    cSTM_Test_Checksum [1, 13, 0, 46, 99] = some 0 ∧
    cSTM_Test_Checksum ([1, 13, 0, 46, 99].set 3 47) = some 1 ∧
    cSTM_Test_Checksum ([1, 13, 0, 46, 99].set 0 2) = some 1 := by
  have h := cSTM_Test_Checksum_amended [1, 13, 0, 46, 99] 1 (by decide) (by decide)
    (by intro j hj1 hj2; omega) (by decide) (by decide)
  refine ⟨h.1.mpr (by decide), h.2.1 47 (by decide) (by decide) ?_, h.2.2 0 2 (by decide)
    (by decide) (by decide) (by decide) (by decide) ?_⟩ <;>
    exact h.1.mpr (by decide)
